import Mathlib

/-!
Verification of the signal module of the `nix-rust` repository
(`src/sys/signal.rs`).

The Rust code is a thin safe wrapper around POSIX signal primitives.  The
wrapper logic (validity checks, error collapsing, the four-way branching of
`pthread_sigmask`, flag derivation in `SigAction::new`) is translated here
directly from the source.  The underlying OS primitives (`sigaddset`,
`sigismember`, `pthread_sigmask`, `sigaction`, ...) are not part of the
repository; they are modelled from the specification's description of the
platform contract: a signal set is a container of identifiers in
`[1, NSIG)`, out-of-range identifiers are rejected with the
invalid-identifier error, and the mask primitive branches on the mode flag
(block = union, unblock = set-difference, setmask = replacement).

Mutable state is made explicit: `&mut self` methods take the current value
and return the updated one; thread-mask operations additionally thread the
calling thread's mask through; `mem::uninitialized()` buffers are passed in
as an explicit `junk` argument (their content is irrelevant on every path
that reads them after the OS wrote them).
-/

namespace NixSignal

/-- Model of `nix::Errno` (only the identity of the error matters here;
`EINVAL` is the invalid-identifier error). -/
inductive Errno where
  | EINVAL
  | unknown (n : Nat)
deriving DecidableEq, Repr

/-- Model of `nix::Result<α> = Result<α, Errno>`. -/
inductive Result (α : Type) where
  | ok (a : α)
  | err (e : Errno)
deriving DecidableEq, Repr

def Result.map {α β : Type} (f : α → β) : Result α → Result β
  | .ok a => .ok (f a)
  | .err e => .err e

/-- Outcome of a computation that may also panic (Rust `unreachable!`). -/
inductive Outcome (α : Type) where
  | ok (a : α)
  | err (e : Errno)
  | panicked
deriving DecidableEq, Repr

/-- Model of `Errno::result(res)` for a `c_int`-returning call: `-1` means failure,
with the error taken from `errno` (here passed explicitly). -/
def Errno.result (res : Int) (e : Errno) : Result Int :=
  if res = -1 then .err e else .ok res

/-- Source: `pub const NSIG: libc::c_int = 32;` (signal.rs line 56). -/
def NSIG : Int := 32

/-- The raw `libc::sigset_t`, modelled by its observable content: the set of
signal numbers it holds. -/
abbrev sigset_t := Finset Int

/-- Modelled from the spec: `libc::sigemptyset` yields a set with no
members. -/
def os_sigemptyset : sigset_t := ∅

/-- Modelled from the spec: `libc::sigfillset` yields a set with every
identifier in `[1, NSIG)` as a member. -/
def os_sigfillset : sigset_t := Finset.Icc 1 (NSIG - 1)

/-- Modelled from the spec: `libc::sigaddset` adds a valid identifier and
returns `0`; an identifier outside `[1, NSIG)` is rejected with `-1` /
`EINVAL` and the set is untouched.  Returns `((res, errno), newSet)`. -/
def os_sigaddset (s : sigset_t) (sig : Int) : (Int × Errno) × sigset_t :=
  if 1 ≤ sig ∧ sig < NSIG then ((0, Errno.unknown 0), insert sig s)
  else ((-1, Errno.EINVAL), s)

/-- Modelled from the spec: `libc::sigdelset`, same contract as
`os_sigaddset` but removing the member. -/
def os_sigdelset (s : sigset_t) (sig : Int) : (Int × Errno) × sigset_t :=
  if 1 ≤ sig ∧ sig < NSIG then ((0, Errno.unknown 0), s.erase sig)
  else ((-1, Errno.EINVAL), s)

/-- Modelled from the spec: `libc::sigismember` returns `1` for a member,
`0` for a non-member, and `-1` / `EINVAL` for an identifier outside
`[1, NSIG)`.  Returns `(res, errno)`. -/
def os_sigismember (s : sigset_t) (sig : Int) : Int × Errno :=
  if 1 ≤ sig ∧ sig < NSIG then ((if sig ∈ s then 1 else 0), Errno.unknown 0)
  else (-1, Errno.EINVAL)

/-- Source: `SigSet::empty()` (signal.rs lines 93-98): `sigemptyset` into an
uninitialized buffer, return value ignored. -/
def SigSet.empty : sigset_t := os_sigemptyset

/-- Source: `SigSet::all()` (signal.rs lines 86-91): `sigfillset` into an
uninitialized buffer, return value ignored. -/
def SigSet.all : sigset_t := os_sigfillset

/-- Source: `SigSet::add` (signal.rs lines 100-104):
`Errno::result(sigaddset(..)).map(drop)`.  Returns the `Result<()>`
together with the updated set (`&mut self`). -/
def SigSet.add (self : sigset_t) (signum : Int) : Result Unit × sigset_t :=
  let r := os_sigaddset self signum
  ((Errno.result r.1.1 r.1.2).map (fun _ => ()), r.2)

/-- Source: `SigSet::remove` (signal.rs lines 112-116). -/
def SigSet.remove (self : sigset_t) (signum : Int) : Result Unit × sigset_t :=
  let r := os_sigdelset self signum
  ((Errno.result r.1.1 r.1.2).map (fun _ => ()), r.2)

/-- Source: `SigSet::clear` (signal.rs lines 106-110). -/
def SigSet.clear (_self : sigset_t) : Result Unit × sigset_t :=
  ((Errno.result 0 (Errno.unknown 0)).map (fun _ => ()), os_sigemptyset)

/-- The post-call collapse in `SigSet::contains` (signal.rs lines 130-134):
`match try!(Errno::result(res)) { 1 => Ok(true), 0 => Ok(false),
_ => unreachable!(..) }`. -/
def contains_of_raw (res : Int) (e : Errno) : Outcome Bool :=
  match Errno.result res e with
  | .err e2 => .err e2
  | .ok v => if v = 1 then .ok true else if v = 0 then .ok false else .panicked

/-- Source: `SigSet::contains` (signal.rs lines 127-135): query `sigismember`, then
collapse its three-valued result. -/
def SigSet.contains (self : sigset_t) (signum : Int) : Outcome Bool :=
  contains_of_raw (os_sigismember self signum).1 (os_sigismember self signum).2

/-- The iteration domain of `for i in 1..NSIG` (signal.rs line 119):
the list `[1, 2, ..., 31]`. -/
def sigRange : List Int := (List.range 31).map (fun n => (n : Int) + 1)

/-- The loop body of `SigSet::extend` (signal.rs lines 119-123):
`if try!(other.contains(i)) { try!(self.add(i)); }`, iterated over the
remaining identifiers, threading `self`. -/
def extendLoop (other : sigset_t) : List Int → sigset_t → Outcome sigset_t
  | [], self => .ok self
  | i :: rest, self =>
    match SigSet.contains other i with
    | .err e => .err e
    | .panicked => .panicked
    | .ok true =>
      match SigSet.add self i with
      | (.err e, _) => .err e
      | (.ok _, self') => extendLoop other rest self'
    | .ok false => extendLoop other rest self

/-- Source: `SigSet::extend` (signal.rs lines 118-125). -/
def SigSet.extend (self other : sigset_t) : Outcome sigset_t :=
  extendLoop other sigRange self

/-- Constant `libc::SIG_BLOCK` (0 on the reference platform); `SigFlags` bit. -/
def SIG_BLOCK : Int := 0

/-- Constant `libc::SIG_UNBLOCK` (1 on the reference platform). -/
def SIG_UNBLOCK : Int := 1

/-- Constant `libc::SIG_SETMASK` (2 on the reference platform). -/
def SIG_SETMASK : Int := 2

/-- Observable result of the repository's `pthread_sigmask` wrapper:
its return value, the thread's mask afterwards, what (if anything) was
written into the caller's `oldset` buffer, and whether the underlying OS
call was issued at all. -/
structure PsmOut where
  ret : Result Unit
  mask : sigset_t
  oldset : Option sigset_t
  os_called : Bool
deriving DecidableEq

/-- Modelled from the spec: the OS `pthread_sigmask` primitive.  If `set`
is null the mode is ignored and the mask is not modified; otherwise
block = union, unblock = set-difference, setmask = replacement, and any
other mode is rejected with `EINVAL`.  When `wantOld` (a non-null `oldset`
pointer) the prior mask is written out on success.  Returns
`((res, errno), newMask, writtenOld)`. -/
def os_pthread_sigmask (how : Int) (set : Option sigset_t) (wantOld : Bool)
    (mask : sigset_t) : (Int × Errno) × sigset_t × Option sigset_t :=
  match set with
  | none => ((0, Errno.unknown 0), mask, if wantOld then some mask else none)
  | some s =>
    if how = SIG_BLOCK then
      ((0, Errno.unknown 0), mask ∪ s, if wantOld then some mask else none)
    else if how = SIG_UNBLOCK then
      ((0, Errno.unknown 0), mask \ s, if wantOld then some mask else none)
    else if how = SIG_SETMASK then
      ((0, Errno.unknown 0), s, if wantOld then some mask else none)
    else ((-1, Errno.EINVAL), mask, none)

/-- Source: `pthread_sigmask` (signal.rs lines 241-258): early `Ok(())` without the
OS call when both pointers are absent, otherwise issue the call and collapse
its result with `Errno::result(..).map(drop)`.  `how` is `SigFlags::bits()`;
`wantOld` is whether the caller passed an `oldset` buffer. -/
def pthread_sigmask (how : Int) (set : Option sigset_t) (wantOld : Bool)
    (mask : sigset_t) : PsmOut :=
  if set = none ∧ wantOld = false then
    { ret := .ok (), mask := mask, oldset := none, os_called := false }
  else
    let r := os_pthread_sigmask how set wantOld mask
    { ret := (Errno.result r.1.1 r.1.2).map (fun _ => ())
      mask := r.2.1
      oldset := r.2.2
      os_called := true }

/-- Source: `SigSet::thread_get_mask` (signal.rs lines 138-142): `oldmask` starts
uninitialized (`junk`); `SigFlags::empty().bits() = 0`. -/
def SigSet.thread_get_mask (junk : sigset_t) (mask : sigset_t) :
    Result sigset_t × sigset_t :=
  let out := pthread_sigmask 0 none true mask
  match out.ret with
  | .err e => (.err e, out.mask)
  | .ok _ => (.ok (out.oldset.getD junk), out.mask)

/-- Source: `SigSet::thread_set_mask` (signal.rs lines 145-147). -/
def SigSet.thread_set_mask (self : sigset_t) (mask : sigset_t) :
    Result Unit × sigset_t :=
  let out := pthread_sigmask SIG_SETMASK (some self) false mask
  (out.ret, out.mask)

/-- Source: `SigSet::thread_block` (signal.rs lines 150-152). -/
def SigSet.thread_block (self : sigset_t) (mask : sigset_t) :
    Result Unit × sigset_t :=
  let out := pthread_sigmask SIG_BLOCK (some self) false mask
  (out.ret, out.mask)

/-- Source: `SigSet::thread_unblock` (signal.rs lines 155-157). -/
def SigSet.thread_unblock (self : sigset_t) (mask : sigset_t) :
    Result Unit × sigset_t :=
  let out := pthread_sigmask SIG_UNBLOCK (some self) false mask
  (out.ret, out.mask)

/-- Source: `SigSet::thread_swap_mask` (signal.rs lines 160-164): `oldmask` starts
uninitialized (`junk`), `try!` the wrapped call, then return `oldmask`.
Result is `(returned value, thread mask afterwards)`. -/
def SigSet.thread_swap_mask (self : sigset_t) (how : Int) (junk : sigset_t)
    (mask : sigset_t) : Result sigset_t × sigset_t :=
  let out := pthread_sigmask how (some self) true mask
  match out.ret with
  | .err e => (.err e, out.mask)
  | .ok _ => (.ok (out.oldset.getD junk), out.mask)

/-- Constant `libc::SIG_DFL` as a `sighandler_t` value (0). -/
def SIG_DFL : Nat := 0

/-- Constant `libc::SIG_IGN` as a `sighandler_t` value (1). -/
def SIG_IGN : Nat := 1

/-- Source: `SigHandler` (signal.rs lines 185-190); function pointers are modelled
by their addresses. -/
inductive SigHandler where
  | SigDfl
  | SigIgn
  | Handler (f : Nat)
  | SigAction (f : Nat)
deriving DecidableEq, Repr

/-- The abstract state of the bitflags type `SaFlags` (signal.rs lines
58-68): one boolean per declared flag. -/
structure SaFlags where
  sa_nocldstop : Bool
  sa_nocldwait : Bool
  sa_nodefer : Bool
  sa_onstack : Bool
  sa_resethand : Bool
  sa_restart : Bool
  sa_siginfo : Bool
deriving DecidableEq, Repr

/-- The `SA_SIGINFO` flag constant. -/
def SA_SIGINFO : SaFlags := ⟨false, false, false, false, false, false, true⟩

/-- bitflags `|` (union). -/
def SaFlags.orFlags (a b : SaFlags) : SaFlags :=
  ⟨a.sa_nocldstop || b.sa_nocldstop, a.sa_nocldwait || b.sa_nocldwait,
   a.sa_nodefer || b.sa_nodefer, a.sa_onstack || b.sa_onstack,
   a.sa_resethand || b.sa_resethand, a.sa_restart || b.sa_restart,
   a.sa_siginfo || b.sa_siginfo⟩

/-- bitflags `-` (set difference: `self.bits & !other.bits`). -/
def SaFlags.subFlags (a b : SaFlags) : SaFlags :=
  ⟨a.sa_nocldstop && !b.sa_nocldstop, a.sa_nocldwait && !b.sa_nocldwait,
   a.sa_nodefer && !b.sa_nodefer, a.sa_onstack && !b.sa_onstack,
   a.sa_resethand && !b.sa_resethand, a.sa_restart && !b.sa_restart,
   a.sa_siginfo && !b.sa_siginfo⟩

/-- Model of `SaFlags::bits()`: the `c_int` bit pattern, as a natural number below
`2^32`, using the reference platform's flag values (`SA_NOCLDSTOP = 1`,
`SA_NOCLDWAIT = 2`, `SA_SIGINFO = 4`, `SA_ONSTACK = 0x08000000`,
`SA_RESTART = 0x10000000`, `SA_NODEFER = 0x40000000`,
`SA_RESETHAND = 0x80000000`). -/
def SaFlags.bits (a : SaFlags) : Nat :=
  (if a.sa_nocldstop then 1 else 0) + (if a.sa_nocldwait then 2 else 0)
  + (if a.sa_siginfo then 4 else 0) + (if a.sa_onstack then 134217728 else 0)
  + (if a.sa_restart then 268435456 else 0)
  + (if a.sa_nodefer then 1073741824 else 0)
  + (if a.sa_resethand then 2147483648 else 0)

/-- The raw `libc::sigaction` record: the three fields the wrapper writes,
plus one further platform field (`sa_restorer`) standing for everything
`SigAction::new` leaves as uninitialized memory. -/
structure libc_sigaction where
  sa_sigaction : Nat
  sa_flags : Nat
  sa_mask : sigset_t
  sa_restorer : Nat
deriving DecidableEq

/-- Source: `SigAction` (signal.rs lines 192-194). -/
structure SigAction where
  sigaction : libc_sigaction
deriving DecidableEq

/-- Source: `SigAction::new` (signal.rs lines 199-214): starts from an
uninitialized record (`junk`), then writes `sa_sigaction`, `sa_flags`
(forcing `SA_SIGINFO` on for the `SigAction` handler variant and off
otherwise) and `sa_mask`. -/
def SigAction.new (handler : SigHandler) (flags : SaFlags) (mask : sigset_t)
    (junk : libc_sigaction) : SigAction :=
  let h := match handler with
    | .SigDfl => SIG_DFL
    | .SigIgn => SIG_IGN
    | .Handler f => f
    | .SigAction f => f
  let fl := match handler with
    | .SigAction _ => (flags.orFlags SA_SIGINFO).bits
    | _ => (flags.subFlags SA_SIGINFO).bits
  ⟨{ junk with sa_sigaction := h, sa_flags := fl, sa_mask := mask }⟩

/-- Constant `SIGKILL` (9 on the reference platform). -/
def SIGKILL : Int := 9

/-- Constant `SIGSTOP` (19 on the reference platform). -/
def SIGSTOP : Int := 19

/-- Modelled from the spec: the OS `sigaction` primitive over the
process-wide disposition table.  A valid, catchable identifier has its
entry replaced and the prior entry written to `oldact`; an identifier
outside `[1, NSIG)`, or one of the two uncatchable signals, is rejected
with `EINVAL` and the table is untouched.
Returns `((res, errno), newTable, writtenOld)`. -/
def os_sigaction (sig : Int) (act : libc_sigaction)
    (tbl : Int → libc_sigaction) :
    (Int × Errno) × (Int → libc_sigaction) × Option libc_sigaction :=
  if 1 ≤ sig ∧ sig < NSIG ∧ sig ≠ SIGKILL ∧ sig ≠ SIGSTOP then
    ((0, Errno.unknown 0), Function.update tbl sig act, some (tbl sig))
  else ((-1, Errno.EINVAL), tbl, none)

/-- Source: `sigaction` (signal.rs lines 217-224): `oldact` starts uninitialized
(`junk`); on success the wrapper wraps the written-back record.  Result is
`(Result<SigAction>, disposition table afterwards)`. -/
def sigaction (signum : Int) (act : SigAction) (junk : libc_sigaction)
    (tbl : Int → libc_sigaction) :
    Result SigAction × (Int → libc_sigaction) :=
  let r := os_sigaction signum act.sigaction tbl
  ((Errno.result r.1.1 r.1.2).map (fun _ => SigAction.mk (r.2.2.getD junk)),
   r.2.1)

/-! Shared helper lemmas. -/

theorem contains_mem {s : sigset_t} {i : Int} (h1 : 1 ≤ i) (h2 : i < NSIG)
    (hm : i ∈ s) : SigSet.contains s i = .ok true := by
  simp [SigSet.contains, os_sigismember, contains_of_raw, Errno.result,
    h1, h2, hm]

theorem contains_not_mem {s : sigset_t} {i : Int} (h1 : 1 ≤ i) (h2 : i < NSIG)
    (hm : i ∉ s) : SigSet.contains s i = .ok false := by
  simp [SigSet.contains, os_sigismember, contains_of_raw, Errno.result,
    h1, h2, hm]

theorem contains_invalid {s : sigset_t} {i : Int}
    (h : ¬(1 ≤ i ∧ i < NSIG)) : SigSet.contains s i = .err Errno.EINVAL := by
  simp [SigSet.contains, os_sigismember, contains_of_raw, Errno.result, h]

theorem add_valid {s : sigset_t} {i : Int} (h1 : 1 ≤ i) (h2 : i < NSIG) :
    SigSet.add s i = (.ok (), insert i s) := by
  simp [SigSet.add, os_sigaddset, Errno.result, Result.map, h1, h2]

theorem add_invalid {s : sigset_t} {i : Int} (h : ¬(1 ≤ i ∧ i < NSIG)) :
    SigSet.add s i = (.err Errno.EINVAL, s) := by
  simp [SigSet.add, os_sigaddset, Errno.result, Result.map, h]

theorem remove_valid {s : sigset_t} {i : Int} (h1 : 1 ≤ i) (h2 : i < NSIG) :
    SigSet.remove s i = (.ok (), s.erase i) := by
  simp [SigSet.remove, os_sigdelset, Errno.result, Result.map, h1, h2]

theorem remove_invalid {s : sigset_t} {i : Int} (h : ¬(1 ≤ i ∧ i < NSIG)) :
    SigSet.remove s i = (.err Errno.EINVAL, s) := by
  simp [SigSet.remove, os_sigdelset, Errno.result, Result.map, h]

theorem sigRange_eq :
    sigRange = [1, 2, 3, 4, 5, 6, 7, 8, 9, 10, 11, 12, 13, 14, 15, 16, 17,
      18, 19, 20, 21, 22, 23, 24, 25, 26, 27, 28, 29, 30, 31] := by
  decide

theorem mem_sigRange (i : Int) : i ∈ sigRange ↔ 1 ≤ i ∧ i < NSIG := by
  rw [sigRange_eq]
  simp only [List.mem_cons, List.not_mem_nil, or_false, NSIG]
  omega

/-! Claim theorems. -/

/-- C4: for every mode value `how`, `pthread_sigmask(how, None, None)`
returns `Ok(())` without issuing the underlying OS call and leaves the
calling thread's signal mask unchanged (and writes no old mask). -/
theorem pthread_sigmask_none_none_noop (how : Int) (mask : sigset_t) :
    pthread_sigmask how none false mask =
      { ret := .ok (), mask := mask, oldset := none, os_called := false } := by
  simp [pthread_sigmask]

/-- C5: `contains` collapses the kernel's three-valued membership answer:
the wrapper applies `contains_of_raw` to the raw `sigismember` reply, and
that collapse yields `Ok(true)` for 1, `Ok(false)` for 0, `Err(errno)` for
the error reply `-1`, and panics (`unreachable!`) on any other value,
never surfacing a normal boolean for it. -/
theorem contains_three_valued (s : sigset_t) (i res : Int) (e : Errno) :
    SigSet.contains s i
        = contains_of_raw (os_sigismember s i).1 (os_sigismember s i).2
    ∧ contains_of_raw 1 e = .ok true
    ∧ contains_of_raw 0 e = .ok false
    ∧ contains_of_raw (-1) e = .err e
    ∧ (res ≠ -1 → res ≠ 1 → res ≠ 0 →
        contains_of_raw res e = .panicked) := by
  refine ⟨rfl, by simp [contains_of_raw, Errno.result],
    by simp [contains_of_raw, Errno.result],
    by simp [contains_of_raw, Errno.result],
    fun h1 h2 h3 => by simp [contains_of_raw, Errno.result, h1, h2, h3]⟩

theorem contains_three_valued_witness :
    contains_of_raw 2 Errno.EINVAL = .panicked
    ∧ SigSet.contains ∅ 3
        = contains_of_raw (os_sigismember ∅ 3).1 (os_sigismember ∅ 3).2 :=
  ⟨(contains_three_valued ∅ 3 2 Errno.EINVAL).2.2.2.2
      (by decide) (by decide) (by decide),
   (contains_three_valued ∅ 3 2 Errno.EINVAL).1⟩

/-- C6: `empty()` and `all()` never fail (they are total constructions),
and for every identifier in `[1, NSIG)`, `empty().contains(i) = Ok(false)`
and `all().contains(i) = Ok(true)`. -/
theorem empty_contains_false_all_contains_true (i : Int)
    (h1 : 1 ≤ i) (h2 : i < NSIG) :
    SigSet.contains SigSet.empty i = .ok false
    ∧ SigSet.contains SigSet.all i = .ok true := by
  constructor
  · exact contains_not_mem h1 h2 (by simp [SigSet.empty, os_sigemptyset])
  · refine contains_mem h1 h2 ?_
    have h2' : i < 32 := h2
    simp only [SigSet.all, os_sigfillset, NSIG, Finset.mem_Icc]
    omega

theorem empty_contains_false_all_contains_true_witness :
    SigSet.contains SigSet.empty 5 = .ok false
    ∧ SigSet.contains SigSet.all 5 = .ok true :=
  empty_contains_false_all_contains_true 5 (by decide) (by decide)

/-- C7: for a valid identifier `i`, `add(i)` succeeds and afterwards
`contains(i) = Ok(true)`; a subsequent `remove(i)` succeeds and afterwards
`contains(i) = Ok(false)`; and membership of every other identifier
`j ≠ i` is unaffected by either mutation. -/
theorem add_then_remove_contains (s : sigset_t) (i : Int)
    (h1 : 1 ≤ i) (h2 : i < NSIG) :
    (SigSet.add s i).1 = .ok ()
    ∧ SigSet.contains (SigSet.add s i).2 i = .ok true
    ∧ (SigSet.remove (SigSet.add s i).2 i).1 = .ok ()
    ∧ SigSet.contains (SigSet.remove (SigSet.add s i).2 i).2 i = .ok false
    ∧ ∀ j : Int, j ≠ i →
        SigSet.contains (SigSet.add s i).2 j = SigSet.contains s j
        ∧ SigSet.contains (SigSet.remove (SigSet.add s i).2 i).2 j
            = SigSet.contains s j := by
  rw [add_valid h1 h2, remove_valid h1 h2]
  refine ⟨rfl, contains_mem h1 h2 (Finset.mem_insert_self i s), rfl,
    contains_not_mem h1 h2 (Finset.not_mem_erase i (insert i s)), ?_⟩
  intro j hj
  by_cases hv : 1 ≤ j ∧ j < NSIG
  · have hins : j ∈ insert i s ↔ j ∈ s := by
      simp [Finset.mem_insert, hj]
    have hers : j ∈ (insert i s).erase i ↔ j ∈ s := by
      simp [Finset.mem_erase, hj, Finset.mem_insert]
    constructor
    · by_cases hm : j ∈ s
      · rw [contains_mem hv.1 hv.2 (hins.mpr hm), contains_mem hv.1 hv.2 hm]
      · rw [contains_not_mem hv.1 hv.2 (fun h => hm (hins.mp h)),
          contains_not_mem hv.1 hv.2 hm]
    · by_cases hm : j ∈ s
      · rw [contains_mem hv.1 hv.2 (hers.mpr hm), contains_mem hv.1 hv.2 hm]
      · rw [contains_not_mem hv.1 hv.2 (fun h => hm (hers.mp h)),
          contains_not_mem hv.1 hv.2 hm]
  · rw [contains_invalid hv, contains_invalid hv, contains_invalid hv]
    exact ⟨rfl, rfl⟩

theorem add_then_remove_contains_witness :
    (SigSet.add {3} 5).1 = .ok ()
    ∧ SigSet.contains (SigSet.add {3} 5).2 5 = .ok true
    ∧ SigSet.contains (SigSet.remove (SigSet.add {3} 5).2 5).2 5 = .ok false
    ∧ SigSet.contains (SigSet.add {3} 5).2 3 = SigSet.contains {3} 3 := by
  obtain ⟨a, b, c, d, e⟩ := add_then_remove_contains {3} 5 (by decide) (by decide)
  exact ⟨a, b, d, (e 3 (by decide)).1⟩

/-- C9: for every identifier `id ≥ NSIG`, `add`, `remove` and `sigaction`
all fail with the invalid-identifier error `EINVAL` (never `Ok`), and
leave their state untouched. -/
theorem invalid_signum_always_rejected (s : sigset_t) (id : Int)
    (hid : NSIG ≤ id) (act : SigAction) (junk : libc_sigaction)
    (tbl : Int → libc_sigaction) :
    SigSet.add s id = (.err Errno.EINVAL, s)
    ∧ SigSet.remove s id = (.err Errno.EINVAL, s)
    ∧ (sigaction id act junk tbl).1 = .err Errno.EINVAL
    ∧ (sigaction id act junk tbl).2 = tbl := by
  have hid' : (32 : Int) ≤ id := hid
  have hninv : ¬(1 ≤ id ∧ id < NSIG) := by
    simp only [NSIG]; omega
  have hc : ¬(1 ≤ id ∧ id < NSIG ∧ id ≠ SIGKILL ∧ id ≠ SIGSTOP) := by
    simp only [NSIG, SIGKILL, SIGSTOP]; omega
  refine ⟨add_invalid hninv, remove_invalid hninv, ?_, ?_⟩
  · simp [sigaction, os_sigaction, Errno.result, Result.map, hc]
  · simp [sigaction, os_sigaction, hc]

theorem invalid_signum_always_rejected_witness :
    SigSet.add ∅ 32 = (.err Errno.EINVAL, ∅)
    ∧ SigSet.remove ∅ 32 = (.err Errno.EINVAL, ∅)
    ∧ (sigaction 32 ⟨⟨0, 0, ∅, 0⟩⟩ ⟨1, 1, ∅, 1⟩ (fun _ => ⟨2, 2, ∅, 2⟩)).1
        = .err Errno.EINVAL
    ∧ (sigaction 32 ⟨⟨0, 0, ∅, 0⟩⟩ ⟨1, 1, ∅, 1⟩ (fun _ => ⟨2, 2, ∅, 2⟩)).2
        = (fun _ => ⟨2, 2, ∅, 2⟩) :=
  invalid_signum_always_rejected ∅ 32 (by decide) ⟨⟨0, 0, ∅, 0⟩⟩
    ⟨1, 1, ∅, 1⟩ (fun _ => ⟨2, 2, ∅, 2⟩)

theorem extendLoop_ok (other : sigset_t) (l : List Int) :
    ∀ s : sigset_t, (∀ i ∈ l, 1 ≤ i ∧ i < NSIG) →
      ∃ s', extendLoop other l s = .ok s'
        ∧ (∀ i ∈ l, i ∈ other → i ∈ s')
        ∧ ∀ i ∈ s, i ∈ s' := by
  induction l with
  | nil =>
    intro s _
    exact ⟨s, rfl, by simp, fun i hi => hi⟩
  | cons i rest ih =>
    intro s h
    have hv := h i (List.mem_cons_self i rest)
    have hrest : ∀ j ∈ rest, 1 ≤ j ∧ j < NSIG :=
      fun j hj => h j (List.mem_cons_of_mem i hj)
    by_cases hm : i ∈ other
    · obtain ⟨s', h1, h2, h3⟩ := ih (insert i s) hrest
      refine ⟨s', ?_, ?_, fun j hj => h3 j (Finset.mem_insert_of_mem hj)⟩
      · rw [extendLoop, contains_mem hv.1 hv.2 hm, add_valid hv.1 hv.2]
        exact h1
      · intro j hj hjo
        rcases List.mem_cons.mp hj with rfl | hj'
        · exact h3 j (Finset.mem_insert_self j s)
        · exact h2 j hj' hjo
    · obtain ⟨s', h1, h2, h3⟩ := ih s hrest
      refine ⟨s', ?_, ?_, h3⟩
      · rw [extendLoop, contains_not_mem hv.1 hv.2 hm]
        exact h1
      · intro j hj hjo
        rcases List.mem_cons.mp hj with rfl | hj'
        · exact absurd hjo hm
        · exact h2 j hj' hjo

/-- C3: `extend` returns `Ok` (in this model every underlying membership
test and add over `1..NSIG` succeeds, so the error path — which would
propagate the error with no rollback — is never taken), and afterwards
every identifier in `[1, NSIG)` that is a member of `other` is a member of
the result, every member of the original `self` remains a member, and
`other` (taken by shared reference) is untouched. -/
theorem extend_adds_members_keeps_members (s other : sigset_t) :
    ∃ s', SigSet.extend s other = .ok s'
      ∧ (∀ i : Int, 1 ≤ i → i < NSIG → i ∈ other → i ∈ s')
      ∧ ∀ i ∈ s, i ∈ s' := by
  obtain ⟨s', h1, h2, h3⟩ :=
    extendLoop_ok other sigRange s (fun i hi => (mem_sigRange i).mp hi)
  exact ⟨s', h1,
    fun i hi1 hi2 hio => h2 i ((mem_sigRange i).mpr ⟨hi1, hi2⟩) hio, h3⟩

theorem extend_adds_members_keeps_members_witness :
    ∃ s', SigSet.extend {5} {3} = .ok s' ∧ (3 : Int) ∈ s' ∧ (5 : Int) ∈ s' :=
  have h := extend_adds_members_keeps_members {5} {3}
  ⟨h.choose, h.choose_spec.1,
    h.choose_spec.2.1 3 (by decide) (by decide) (by decide),
    h.choose_spec.2.2 5 (by decide)⟩

/-- C1: on every success, `thread_swap_mask(new, how)` returns exactly the
thread mask that was in effect immediately before the call; for each of
the three documented modes it always succeeds, and a subsequent
`thread_swap_mask(old_returned, SIG_SETMASK)` restores the thread's mask
to exactly its original value (round-trip law). -/
theorem thread_swap_mask_roundtrip (new : sigset_t) (how : Int)
    (hhow : how = SIG_BLOCK ∨ how = SIG_UNBLOCK ∨ how = SIG_SETMASK)
    (junk junk2 mask : sigset_t) :
    ∃ mask', SigSet.thread_swap_mask new how junk mask = (.ok mask, mask')
      ∧ SigSet.thread_swap_mask mask SIG_SETMASK junk2 mask'
          = (.ok mask', mask) := by
  rcases hhow with rfl | rfl | rfl
  · exact ⟨mask ∪ new, by
      simp [SigSet.thread_swap_mask, pthread_sigmask, os_pthread_sigmask,
        Errno.result, Result.map, SIG_BLOCK, SIG_UNBLOCK, SIG_SETMASK], by
      simp [SigSet.thread_swap_mask, pthread_sigmask, os_pthread_sigmask,
        Errno.result, Result.map, SIG_BLOCK, SIG_UNBLOCK, SIG_SETMASK]⟩
  · exact ⟨mask \ new, by
      simp [SigSet.thread_swap_mask, pthread_sigmask, os_pthread_sigmask,
        Errno.result, Result.map, SIG_BLOCK, SIG_UNBLOCK, SIG_SETMASK], by
      simp [SigSet.thread_swap_mask, pthread_sigmask, os_pthread_sigmask,
        Errno.result, Result.map, SIG_BLOCK, SIG_UNBLOCK, SIG_SETMASK]⟩
  · exact ⟨new, by
      simp [SigSet.thread_swap_mask, pthread_sigmask, os_pthread_sigmask,
        Errno.result, Result.map, SIG_BLOCK, SIG_UNBLOCK, SIG_SETMASK], by
      simp [SigSet.thread_swap_mask, pthread_sigmask, os_pthread_sigmask,
        Errno.result, Result.map, SIG_BLOCK, SIG_UNBLOCK, SIG_SETMASK]⟩

theorem thread_swap_mask_roundtrip_witness :
    ∃ mask', SigSet.thread_swap_mask {2} SIG_BLOCK ∅ {3} = (.ok {3}, mask')
      ∧ SigSet.thread_swap_mask {3} SIG_SETMASK ∅ mask'
          = (.ok mask', {3}) :=
  thread_swap_mask_roundtrip {2} SIG_BLOCK (Or.inl rfl) ∅ ∅ {3}

theorem orFlags_siginfo_bits (a : SaFlags) :
    (a.orFlags SA_SIGINFO).bits.testBit 2 = true
    ∧ (a.orFlags SA_SIGINFO).bits.testBit 0 = a.sa_nocldstop
    ∧ (a.orFlags SA_SIGINFO).bits.testBit 1 = a.sa_nocldwait
    ∧ (a.orFlags SA_SIGINFO).bits.testBit 27 = a.sa_onstack
    ∧ (a.orFlags SA_SIGINFO).bits.testBit 28 = a.sa_restart
    ∧ (a.orFlags SA_SIGINFO).bits.testBit 30 = a.sa_nodefer
    ∧ (a.orFlags SA_SIGINFO).bits.testBit 31 = a.sa_resethand := by
  obtain ⟨b0, b1, b2, b3, b4, b5, b6⟩ := a
  cases b0 <;> cases b1 <;> cases b2 <;> cases b3 <;> cases b4 <;> cases b5
    <;> cases b6 <;> decide

theorem subFlags_siginfo_bits (a : SaFlags) :
    (a.subFlags SA_SIGINFO).bits.testBit 2 = false
    ∧ (a.subFlags SA_SIGINFO).bits.testBit 0 = a.sa_nocldstop
    ∧ (a.subFlags SA_SIGINFO).bits.testBit 1 = a.sa_nocldwait
    ∧ (a.subFlags SA_SIGINFO).bits.testBit 27 = a.sa_onstack
    ∧ (a.subFlags SA_SIGINFO).bits.testBit 28 = a.sa_restart
    ∧ (a.subFlags SA_SIGINFO).bits.testBit 30 = a.sa_nodefer
    ∧ (a.subFlags SA_SIGINFO).bits.testBit 31 = a.sa_resethand := by
  obtain ⟨b0, b1, b2, b3, b4, b5, b6⟩ := a
  cases b0 <;> cases b1 <;> cases b2 <;> cases b3 <;> cases b4 <;> cases b5
    <;> cases b6 <;> decide

/-- C2: `SigAction::new` cannot fail (it is a total value construction),
and in the record it builds the `SA_SIGINFO` bit of `sa_flags` is set if
and only if the handler is the `SigHandler::SigAction` variant — whatever
the caller put in `flags` — while every other declared flag bit equals the
caller-supplied value. -/
theorem sigaction_new_forces_siginfo (handler : SigHandler) (flags : SaFlags)
    (mask : sigset_t) (junk : libc_sigaction) :
    ((SigAction.new handler flags mask junk).sigaction.sa_flags.testBit 2
      = match handler with
        | SigHandler.SigAction _ => true
        | _ => false)
    ∧ (SigAction.new handler flags mask junk).sigaction.sa_flags.testBit 0
        = flags.sa_nocldstop
    ∧ (SigAction.new handler flags mask junk).sigaction.sa_flags.testBit 1
        = flags.sa_nocldwait
    ∧ (SigAction.new handler flags mask junk).sigaction.sa_flags.testBit 27
        = flags.sa_onstack
    ∧ (SigAction.new handler flags mask junk).sigaction.sa_flags.testBit 28
        = flags.sa_restart
    ∧ (SigAction.new handler flags mask junk).sigaction.sa_flags.testBit 30
        = flags.sa_nodefer
    ∧ (SigAction.new handler flags mask junk).sigaction.sa_flags.testBit 31
        = flags.sa_resethand := by
  cases handler
  case SigDfl => exact subFlags_siginfo_bits flags
  case SigIgn => exact subFlags_siginfo_bits flags
  case Handler f => exact subFlags_siginfo_bits flags
  case SigAction f => exact orFlags_siginfo_bits flags

/-- C10: `SigAction::new` writes exactly `sa_sigaction`, `sa_flags` and
`sa_mask`: the remaining field of the raw record keeps whatever the
uninitialized memory held, the three written fields do not depend on that
memory, and two records built from identical arguments over different
uninitialized memory need not be identical. -/
theorem sigaction_new_leaves_rest_uninitialized (handler : SigHandler)
    (flags : SaFlags) (mask : sigset_t) (j j2 : libc_sigaction) :
    (SigAction.new handler flags mask j).sigaction.sa_restorer
        = j.sa_restorer
    ∧ (SigAction.new handler flags mask j).sigaction.sa_sigaction
        = (SigAction.new handler flags mask j2).sigaction.sa_sigaction
    ∧ (SigAction.new handler flags mask j).sigaction.sa_flags
        = (SigAction.new handler flags mask j2).sigaction.sa_flags
    ∧ (SigAction.new handler flags mask j).sigaction.sa_mask
        = (SigAction.new handler flags mask j2).sigaction.sa_mask
    ∧ (j.sa_restorer ≠ j2.sa_restorer →
        SigAction.new handler flags mask j
          ≠ SigAction.new handler flags mask j2) := by
  refine ⟨?_, ?_, ?_, ?_, fun hne heq => hne ?_⟩
  · cases handler <;> rfl
  · cases handler <;> rfl
  · cases handler <;> rfl
  · cases handler <;> rfl
  · have h := congrArg (fun a => a.sigaction.sa_restorer) heq
    cases handler <;> simpa [SigAction.new] using h

theorem sigaction_new_leaves_rest_uninitialized_witness :
    SigAction.new SigHandler.SigDfl
        ⟨false, false, false, false, false, false, false⟩ ∅ ⟨0, 0, ∅, 0⟩
      ≠ SigAction.new SigHandler.SigDfl
        ⟨false, false, false, false, false, false, false⟩ ∅ ⟨0, 0, ∅, 1⟩ :=
  (sigaction_new_leaves_rest_uninitialized SigHandler.SigDfl
    ⟨false, false, false, false, false, false, false⟩ ∅
    ⟨0, 0, ∅, 0⟩ ⟨0, 0, ∅, 1⟩).2.2.2.2 (by decide)

/-- C8: whenever `sigaction(signum, act)` succeeds it returns exactly the
disposition record that was installed immediately before the call, and the
process-wide table afterwards holds `act` at `signum` and is unchanged
everywhere else; whenever it fails it returns the OS error and the table
is unchanged. -/
theorem sigaction_replaces_and_returns_previous (signum : Int)
    (act : SigAction) (junk : libc_sigaction) (tbl : Int → libc_sigaction) :
    (∀ oldA, (sigaction signum act junk tbl).1 = .ok oldA →
        oldA = SigAction.mk (tbl signum)
        ∧ (sigaction signum act junk tbl).2 signum = act.sigaction
        ∧ ∀ j, j ≠ signum → (sigaction signum act junk tbl).2 j = tbl j)
    ∧ ∀ e, (sigaction signum act junk tbl).1 = .err e →
        (sigaction signum act junk tbl).2 = tbl := by
  by_cases hv : 1 ≤ signum ∧ signum < NSIG ∧ signum ≠ SIGKILL
      ∧ signum ≠ SIGSTOP
  · have hrun : sigaction signum act junk tbl
        = (.ok (SigAction.mk (tbl signum)),
           Function.update tbl signum act.sigaction) := by
      simp [sigaction, os_sigaction, if_pos hv, Errno.result, Result.map]
    constructor
    · intro oldA hok
      rw [hrun] at hok
      simp only [Result.ok.injEq] at hok
      rw [hrun]
      refine ⟨hok.symm, Function.update_same signum act.sigaction tbl, ?_⟩
      intro j hj
      exact Function.update_noteq hj act.sigaction tbl
    · intro e herr
      rw [hrun] at herr
      exact Result.noConfusion herr
  · have hrun : sigaction signum act junk tbl = (.err Errno.EINVAL, tbl) := by
      simp [sigaction, os_sigaction, if_neg hv, Errno.result, Result.map]
    constructor
    · intro oldA hok
      rw [hrun] at hok
      exact Result.noConfusion hok
    · intro e _
      rw [hrun]

theorem sigaction_replaces_and_returns_previous_witness :
    (sigaction 2 ⟨⟨0, 0, ∅, 0⟩⟩ ⟨1, 1, ∅, 1⟩ (fun _ => ⟨2, 2, ∅, 2⟩)).2 2
        = ⟨0, 0, ∅, 0⟩
    ∧ (sigaction 2 ⟨⟨0, 0, ∅, 0⟩⟩ ⟨1, 1, ∅, 1⟩ (fun _ => ⟨2, 2, ∅, 2⟩)).2 5
        = ⟨2, 2, ∅, 2⟩ := by
  obtain ⟨hok, -⟩ := sigaction_replaces_and_returns_previous 2
    ⟨⟨0, 0, ∅, 0⟩⟩ ⟨1, 1, ∅, 1⟩ (fun _ => ⟨2, 2, ∅, 2⟩)
  obtain ⟨-, h2, h3⟩ := hok ⟨⟨2, 2, ∅, 2⟩⟩ (by decide)
  exact ⟨h2, h3 5 (by decide)⟩

end NixSignal
